import Mathlib

/-!
Shallow embedding of `src/server.js`, the alipay checkout simulator backend.

The server keeps two in-memory JS `Map`s (`orders`, `payments`) and exposes
six routes.  Each route handler is embedded as a pure Lean function over an
explicit `ServerState`; every nondeterministic input the handler reads
(`Date.now()`, `Math.random()` draws, the random suffix of
`Math.random().toString(36).substr(2, 9)`) is passed as an explicit argument.
Timestamps are modelled as natural-number milliseconds, `Math.random()` draws
as rationals in `[0, 1)`, and money amounts as rationals.
-/

namespace AlipayDemo

/-! ### JS `Map` model

A JS `Map` preserves insertion order; `set` on an existing key updates the
entry in place, otherwise it appends.  We model it as an association list. -/

def mapGet {α : Type} (m : List (String × α)) (k : String) : Option α :=
  match m with
  | [] => none
  | q :: rest => if q.1 = k then some q.2 else mapGet rest k

def mapSet {α : Type} (m : List (String × α)) (k : String) (v : α) :
    List (String × α) :=
  match m with
  | [] => [(k, v)]
  | q :: rest => if q.1 = k then (k, v) :: rest else q :: mapSet rest k v

/-! ### Data model -/

/-- An order record, as built by `POST /api/payment/create` (server.js:27-35)
and mutated by the validate route (server.js:107-108). -/
structure Order where
  orderId : String
  amount : ℚ
  subject : String
  bankCard : String
  bankName : String
  status : String
  createTime : ℕ
  payTime : Option ℕ
  deriving Repr, DecidableEq

/-- A payment record, as built on the acceptance branch of
`POST /api/payment/validate` (server.js:110-116). -/
structure Payment where
  paymentId : String
  orderId : String
  amount : ℚ
  status : String
  payTime : ℕ
  deriving Repr, DecidableEq

/-- The two in-memory stores (server.js:14-15). -/
structure ServerState where
  orders : List (String × Order)
  payments : List (String × Payment)
  deriving Repr, DecidableEq

def initState : ServerState := { orders := [], payments := [] }

/-- The JSON response envelope together with the HTTP status code. -/
structure HttpResponse (α : Type) where
  httpStatus : ℕ
  success : Bool
  code : ℕ
  data : Option α
  message : Option String
  deriving Repr, DecidableEq

/-- The 404 envelope shared by info/validate/query (server.js:56-62). -/
def notFoundResponse (α : Type) : HttpResponse α :=
  { httpStatus := 404, success := false, code := 404, data := none,
    message := some "订单不存在" }

/-! ### Identifier generation -/

/-- Function `generateOrderId` (server.js:18-20):
`ORDER${Date.now()}${Math.random().toString(36).substr(2, 9)}`.
`now` is the `Date.now()` reading, `rand` the random base-36 suffix. -/
def generateOrderId (now : ℕ) (rand : String) : String :=
  "ORDER" ++ toString now ++ rand

/-- The payment identifier built inline at server.js:111:
`PAY${Date.now()}` — a time component only, with no random part. -/
def generatePaymentId (now : ℕ) : String :=
  "PAY" ++ toString now

/-! ### Delay sampling

Each route samples `Math.random() * span + lo`; the argument `r` is the
`Math.random()` draw, a rational in `[0, 1)`. -/

def createDelay (r : ℚ) : ℚ := r * 150 + 50
def infoDelay (r : ℚ) : ℚ := r * 100 + 30
def validateDelay (r : ℚ) : ℚ := r * 400 + 100
def queryDelay (r : ℚ) : ℚ := r * 80 + 20
def securityDelay (r : ℚ) : ℚ := r * 50 + 10

/-! ### Route handlers -/

/-- Route `POST /api/payment/create` (server.js:23-49).  Inputs `amount`,
`subject`, `bankCard` come from the JSON body; `none` models an absent
field.  JS `x || default` substitutes the default for every falsy value:
for a number that is `0`, for a string the empty string.  Returns the
created order (the response `data`), the sampled delay, and the new state. -/
def createOrder (st : ServerState) (amount : Option ℚ)
    (subject bankCard : Option String) (now : ℕ) (rand : String) (r : ℚ) :
    Order × ℚ × ServerState :=
  let orderId := generateOrderId now rand
  let order : Order :=
    { orderId := orderId
      amount := match amount with
        | none => 579
        | some a => if a = 0 then 579 else a
      subject := match subject with
        | none => "罗技大师系列MX Master 3s无线蓝牙双模鼠标"
        | some s => if s = "" then "罗技大师系列MX Master 3s无线蓝牙双模鼠标" else s
      bankCard := match bankCard with
        | none => "****7061"
        | some s => if s = "" then "****7061" else s
      bankName := "中国建设银行"
      status := "pending"
      createTime := now
      payTime := none }
  (order, createDelay r, { st with orders := mapSet st.orders orderId order })

/-- Route `GET /api/payment/info/:orderId` (server.js:52-73).  On a missing order
the 404 envelope is returned at once (no delay is sampled: the handler
returns before reaching `Math.random()`), hence the delay component `none`. -/
def getOrderInfo (st : ServerState) (orderId : String) (r : ℚ) :
    HttpResponse Order × Option ℚ × ServerState :=
  match mapGet st.orders orderId with
  | none => (notFoundResponse Order, none, st)
  | some order =>
      ({ httpStatus := 200, success := true, code := 0, data := some order,
         message := none }, some (infoDelay r), st)

/-- Route `POST /api/payment/validate` (server.js:76-128).  `rFail` is the
`Math.random()` draw compared against `0.05` (written `mkRat 1 20`, the same
rational), `rDelay` the delay draw, and
`now` the clock reading inside the delayed callback (used for `payTime` and
the payment identifier).  On a missing order the 404 envelope is returned
before any sampling.  Rejection (`randomFail || !isValidPassword`) leaves
both stores untouched; acceptance mutates the order in place to
`status = "success"`, sets `payTime`, and stores a new payment. -/
def validateCredential (st : ServerState) (orderId password : String)
    (rFail rDelay : ℚ) (now : ℕ) :
    HttpResponse Payment × Option ℚ × ServerState :=
  match mapGet st.orders orderId with
  | none => (notFoundResponse Payment, none, st)
  | some order =>
      let isValidPassword := password = "123456"
      let randomFail := rFail < mkRat 1 20
      let delay := validateDelay rDelay
      if randomFail ∨ ¬ isValidPassword then
        ({ httpStatus := 200, success := false, code := 1001, data := none,
           message := some "支付密码错误" }, some delay, st)
      else
        let order2 : Order := { order with status := "success", payTime := some now }
        let payment : Payment :=
          { paymentId := generatePaymentId now
            orderId := orderId
            amount := order2.amount
            status := "success"
            payTime := now }
        ({ httpStatus := 200, success := true, code := 0, data := some payment,
           message := some "支付成功" }, some delay,
         { orders := mapSet st.orders orderId order2
           payments := mapSet st.payments payment.paymentId payment })

/-- The projection returned by `GET /api/payment/query/:orderId`
(server.js:148-153). -/
structure QueryData where
  orderId : String
  status : String
  amount : ℚ
  payTime : Option ℕ
  deriving Repr, DecidableEq

/-- Route `GET /api/payment/query/:orderId` (server.js:131-156). -/
def queryResult (st : ServerState) (orderId : String) (r : ℚ) :
    HttpResponse QueryData × Option ℚ × ServerState :=
  match mapGet st.orders orderId with
  | none => (notFoundResponse QueryData, none, st)
  | some order =>
      ({ httpStatus := 200, success := true, code := 0,
         data := some { orderId := order.orderId, status := order.status,
                        amount := order.amount, payTime := order.payTime },
         message := none }, some (queryDelay r), st)

/-- The payload of `GET /api/security/check` (server.js:167-170). -/
structure SecurityData where
  deviceCheck : Bool
  riskLevel : String
  deriving Repr, DecidableEq

/-- Route `GET /api/security/check` (server.js:159-173). -/
def securityCheck (st : ServerState) (r : ℚ) :
    HttpResponse SecurityData × ℚ × ServerState :=
  ({ httpStatus := 200, success := true, code := 0,
     data := some { deviceCheck := true, riskLevel := "low" },
     message := some "安全设置检测成功！" }, securityDelay r, st)

/-- The payload of `GET /api/stats` (server.js:176-182); this route returns
the raw object with no envelope and samples no delay. -/
structure StatsData where
  totalOrders : ℕ
  totalPayments : ℕ
  successRate : ℚ
  deriving Repr, DecidableEq

/-- Route `GET /api/stats` (server.js:176-182):
`payments.size / Math.max(orders.size, 1)`. -/
def stats (st : ServerState) : StatsData :=
  { totalOrders := st.orders.length
    totalPayments := st.payments.length
    successRate := (st.payments.length : ℚ) / ((max st.orders.length 1 : ℕ) : ℚ) }

/-! ### Traces -/

/-- One external request together with its nondeterministic inputs. -/
inductive Op where
  | create (amount : Option ℚ) (subject bankCard : Option String)
      (now : ℕ) (rand : String) (r : ℚ)
  | validate (orderId password : String) (rFail rDelay : ℚ) (now : ℕ)
  | info (orderId : String) (r : ℚ)
  | query (orderId : String) (r : ℚ)
  | security (r : ℚ)
  | statsOp
  deriving Repr

/-- The state after handling one request. -/
def applyOp (st : ServerState) : Op → ServerState
  | .create a s b now rand r => (createOrder st a s b now rand r).2.2
  | .validate oid pw rf rd now => (validateCredential st oid pw rf rd now).2.2
  | .info oid r => (getOrderInfo st oid r).2.2
  | .query oid r => (queryResult st oid r).2.2
  | .security r => (securityCheck st r).2.2
  | .statsOp => st

def runOps (ops : List Op) : ServerState := ops.foldl applyOp initState

/-- A state the server can be in after some sequence of requests. -/
def Reachable (st : ServerState) : Prop := ∃ ops, runOps ops = st

/-- Freshness of the identifiers an operation generates: the orderId built by
a create, and the paymentId built by a validate that will accept, must not
already be keys of their stores.  The generator offers no such guarantee
(both components can repeat), so this is a genuine side condition. -/
def opFresh (st : ServerState) : Op → Prop
  | .create _ _ _ now rand _ => mapGet st.orders (generateOrderId now rand) = none
  | .validate oid password rFail _ now =>
      ((mapGet st.orders oid).isSome = true ∧ ¬ rFail < mkRat 1 20 ∧
        password = "123456") →
        mapGet st.payments (generatePaymentId now) = none
  | _ => True

/-- Reachability along traces in which every generated identifier was fresh
at the moment it was generated. -/
inductive FreshReachable : ServerState → Prop where
  | init : FreshReachable initState
  | step {st : ServerState} {op : Op} : FreshReachable st → opFresh st op →
      FreshReachable (applyOp st op)

/-- The payment/order linking invariant: every stored Payment references a
stored Order with status `"success"`, and every `"success"` Order is
referenced by some stored Payment. -/
def PaymentLink (st : ServerState) : Prop :=
  (∀ e ∈ st.payments, ∃ o, (e.2.orderId, o) ∈ st.orders ∧ o.status = "success") ∧
  (∀ e ∈ st.orders, e.2.status = "success" → ∃ pe ∈ st.payments, pe.2.orderId = e.1)

/-! ### The claims under test, stated verbatim -/

/-- Claim C1 as stated: for every stored order, rejection happens iff the 5%
draw triggers or the password differs from `"123456"`; on rejection the order
is left unchanged and *still pending*, and no Payment is created; on
acceptance the order becomes `"success"` with `payTime` set and a matching
Payment is stored and returned. -/
def claimC1Statement : Prop :=
  ∀ (st : ServerState) (oid pw : String) (order : Order) (rFail rDelay : ℚ)
    (now : ℕ), mapGet st.orders oid = some order →
    (((validateCredential st oid pw rFail rDelay now).1.success = false) ↔
      (rFail < mkRat 1 20 ∨ pw ≠ "123456")) ∧
    ((validateCredential st oid pw rFail rDelay now).1.success = false →
      (validateCredential st oid pw rFail rDelay now).2.2 = st ∧
      (validateCredential st oid pw rFail rDelay now).1.data = none ∧
      (∀ o', mapGet (validateCredential st oid pw rFail rDelay now).2.2.orders
          oid = some o' → o'.status = "pending")) ∧
    ((validateCredential st oid pw rFail rDelay now).1.success = true →
      ∃ pay, (validateCredential st oid pw rFail rDelay now).1.data = some pay ∧
        mapGet (validateCredential st oid pw rFail rDelay now).2.2.orders oid =
          some { order with status := "success", payTime := some now } ∧
        pay.orderId = oid ∧ pay.amount = order.amount ∧ pay.payTime = now ∧
        mapGet (validateCredential st oid pw rFail rDelay now).2.2.payments
          pay.paymentId = some pay)

/-- Claim C2 as stated: over any request sequence, a Payment exists iff the
referenced order is `"success"`, and at most one Payment is ever created per
order. -/
def claimC2Statement : Prop :=
  ∀ st : ServerState, Reachable st →
    (∀ e ∈ st.payments, ∃ o, (e.2.orderId, o) ∈ st.orders ∧
      o.status = "success") ∧
    (∀ e ∈ st.orders, e.2.status = "success" →
      ∃ pe ∈ st.payments, pe.2.orderId = e.1) ∧
    (∀ oid : String,
      (st.payments.filter (fun pe => pe.2.orderId = oid)).length ≤ 1)

/-- Claim C6 as stated: across any sequence of calls, identifiers of the
same kind are pairwise distinct, for order ids (inputs: clock reading and
random suffix) and payment ids (input: clock reading) alike. -/
def claimC6Statement : Prop :=
  (∀ (calls : List (ℕ × String)) (i j : Fin calls.length), i ≠ j →
    generateOrderId (calls.get i).1 (calls.get i).2 ≠
      generateOrderId (calls.get j).1 (calls.get j).2) ∧
  (∀ (times : List ℕ) (i j : Fin times.length), i ≠ j →
    generatePaymentId (times.get i) ≠ generatePaymentId (times.get j))

/-- Claim C8 as stated: every sampled delay lies in its documented closed
range, including both endpoints — i.e. both endpoints are attainable from a
`Math.random()` draw in `[0, 1)`. -/
def claimC8Statement : Prop :=
  (∀ r : ℚ, 0 ≤ r → r < 1 →
    (50 ≤ createDelay r ∧ createDelay r ≤ 200) ∧
    (30 ≤ infoDelay r ∧ infoDelay r ≤ 130) ∧
    (100 ≤ validateDelay r ∧ validateDelay r ≤ 500) ∧
    (20 ≤ queryDelay r ∧ queryDelay r ≤ 100) ∧
    (10 ≤ securityDelay r ∧ securityDelay r ≤ 60)) ∧
  (∃ r : ℚ, 0 ≤ r ∧ r < 1 ∧ createDelay r = 50) ∧
  (∃ r : ℚ, 0 ≤ r ∧ r < 1 ∧ createDelay r = 200) ∧
  (∃ r : ℚ, 0 ≤ r ∧ r < 1 ∧ infoDelay r = 130) ∧
  (∃ r : ℚ, 0 ≤ r ∧ r < 1 ∧ validateDelay r = 500) ∧
  (∃ r : ℚ, 0 ≤ r ∧ r < 1 ∧ queryDelay r = 100) ∧
  (∃ r : ℚ, 0 ≤ r ∧ r < 1 ∧ securityDelay r = 60)

/-! ### Concrete fixtures -/

/-- Create one order (at clock 1, suffix `"x"`), then validate it twice with
the correct password and a failure draw of 1/2 (≥ 0.05, so no random
failure), at clocks 2 and 3. -/
def ops1 : List Op :=
  [ .create none none none 1 "x" (mkRat 1 2),
    .validate "ORDER1x" "123456" (mkRat 1 2) (mkRat 1 2) 2,
    .validate "ORDER1x" "123456" (mkRat 1 2) (mkRat 1 2) 3 ]

/-- The same trace stopped after the first successful validation. -/
def ops2 : List Op :=
  [ .create none none none 1 "x" (mkRat 1 2),
    .validate "ORDER1x" "123456" (mkRat 1 2) (mkRat 1 2) 2 ]

/-- An order that has already been settled. -/
def successOrder : Order :=
  { orderId := "ORDER1x", amount := 579, subject := "s", bankCard := "c",
    bankName := "b", status := "success", createTime := 0, payTime := some 5 }

def stSuccess : ServerState :=
  { orders := [("ORDER1x", successOrder)], payments := [] }

/-- A freshly created, still pending order. -/
def pendingOrder : Order :=
  { orderId := "A", amount := 100, subject := "s", bankCard := "c",
    bankName := "b", status := "pending", createTime := 0, payTime := none }

def stPending : ServerState :=
  { orders := [("A", pendingOrder)], payments := [] }

/-- Just the create step of `ops1`. -/
def ops3 : List Op := [.create none none none 1 "x" (mkRat 1 2)]

/-- The order record the create step of `ops1` stores. -/
def createdOrder : Order :=
  { orderId := "ORDER1x", amount := 579,
    subject := "罗技大师系列MX Master 3s无线蓝牙双模鼠标",
    bankCard := "****7061", bankName := "中国建设银行",
    status := "pending", createTime := 1, payTime := none }

/-- The payment record the first validation of `ops1` stores. -/
def pay2Rec : Payment :=
  { paymentId := "PAY2", orderId := "ORDER1x", amount := 579,
    status := "success", payTime := 2 }

/-- The in-place mutation the acceptance branch applies to an order
(server.js:107-108). -/
def settledOrder (order : Order) (now : ℕ) : Order :=
  { order with status := "success", payTime := some now }

/-- The payment record the acceptance branch constructs (server.js:110-116). -/
def mkPaymentRec (oid : String) (amount : ℚ) (now : ℕ) : Payment :=
  { paymentId := generatePaymentId now, orderId := oid, amount := amount,
    status := "success", payTime := now }

/-! ### Lemmas about the `Map` model -/

theorem mapGet_mapSet_self {α : Type} (m : List (String × α)) (k : String)
    (v : α) : mapGet (mapSet m k v) k = some v := by
  induction m with
  | nil => simp [mapGet, mapSet]
  | cons q rest ih =>
      by_cases hqk : q.1 = k
      · simp [mapGet, mapSet, hqk]
      · simp [mapGet, mapSet, hqk, ih]

theorem mapGet_mapSet_ne {α : Type} (m : List (String × α)) {k k' : String}
    (v : α) (h : k' ≠ k) : mapGet (mapSet m k v) k' = mapGet m k' := by
  induction m with
  | nil => simp [mapGet, mapSet, Ne.symm h]
  | cons q rest ih =>
      by_cases hqk : q.1 = k
      · simp [mapGet, mapSet, hqk, Ne.symm h]
      · simp only [mapSet, if_neg hqk, mapGet]
        by_cases hqk' : q.1 = k'
        · simp [hqk']
        · simp [hqk', ih]

theorem mem_mapSet {α : Type} {m : List (String × α)} {k : String} {v : α}
    {p : String × α} (h : p ∈ mapSet m k v) : p = (k, v) ∨ p ∈ m := by
  induction m with
  | nil => simp [mapSet] at h; simp [h]
  | cons q rest ih =>
      by_cases hqk : q.1 = k
      · simp only [mapSet, if_pos hqk, List.mem_cons] at h
        rcases h with h | h
        · exact Or.inl h
        · exact Or.inr (List.mem_cons_of_mem _ h)
      · simp only [mapSet, if_neg hqk, List.mem_cons] at h
        rcases h with h | h
        · exact Or.inr (h ▸ List.mem_cons_self _ _)
        · rcases ih h with h' | h'
          · exact Or.inl h'
          · exact Or.inr (List.mem_cons_of_mem _ h')

theorem mem_mapSet_of_ne {α : Type} {m : List (String × α)} {k : String}
    (v : α) {p : String × α} (hp : p ∈ m) (hne : p.1 ≠ k) :
    p ∈ mapSet m k v := by
  induction m with
  | nil => simp at hp
  | cons q rest ih =>
      rcases List.mem_cons.mp hp with h | h
      · subst h
        simp [mapSet, if_neg hne]
      · by_cases hqk : q.1 = k
        · simp only [mapSet, if_pos hqk, List.mem_cons]
          exact Or.inr h
        · simp only [mapSet, if_neg hqk, List.mem_cons]
          exact Or.inr (ih h)

theorem self_mem_mapSet {α : Type} (m : List (String × α)) (k : String)
    (v : α) : (k, v) ∈ mapSet m k v := by
  induction m with
  | nil => simp [mapSet]
  | cons q rest ih =>
      by_cases hqk : q.1 = k
      · simp [mapSet, if_pos hqk]
      · simp only [mapSet, if_neg hqk, List.mem_cons]
        exact Or.inr ih

theorem mapSet_of_fresh {α : Type} {m : List (String × α)} {k : String}
    {v : α} (h : mapGet m k = none) : mapSet m k v = m ++ [(k, v)] := by
  induction m with
  | nil => simp [mapSet]
  | cons q rest ih =>
      by_cases hqk : q.1 = k
      · simp [mapGet, hqk] at h
      · simp only [mapGet, if_neg hqk] at h
        simp [mapSet, if_neg hqk, ih h]

theorem mapGet_eq_none_iff {α : Type} {m : List (String × α)} {k : String} :
    mapGet m k = none ↔ ∀ p ∈ m, p.1 ≠ k := by
  induction m with
  | nil => simp [mapGet]
  | cons q rest ih =>
      by_cases hqk : q.1 = k
      · simp [mapGet, hqk]
      · simp [mapGet, hqk, ih]

theorem mem_of_mapGet_eq_some {α : Type} {m : List (String × α)} {k : String}
    {v : α} (h : mapGet m k = some v) : (k, v) ∈ m := by
  induction m with
  | nil => simp [mapGet] at h
  | cons q rest ih =>
      obtain ⟨q1, q2⟩ := q
      by_cases hqk : q1 = k
      · subst hqk
        simp only [mapGet, if_pos rfl] at h
        have hv : q2 = v := Option.some.inj h
        subst hv
        exact List.mem_cons_self _ _
      · have hqk' : ((q1, q2) : String × α).1 = k ↔ False := by simp [hqk]
        simp only [mapGet, hqk', if_false] at h
        exact List.mem_cons_of_mem _ (ih h)

theorem mapSet_ne_nil {α : Type} (m : List (String × α)) (k : String)
    (v : α) : mapSet m k v ≠ [] := by
  cases m with
  | nil => simp [mapSet]
  | cons q rest =>
      simp only [mapSet]
      split <;> simp

/-! ### Trace induction -/

theorem invariant_foldl (P : ServerState → Prop)
    (hstep : ∀ st op, P st → P (applyOp st op)) :
    ∀ (ops : List Op) (st : ServerState), P st → P (ops.foldl applyOp st) := by
  intro ops
  induction ops with
  | nil => exact fun st h => h
  | cons op rest ih => exact fun st h => ih _ (hstep st op h)

/-- One step preserves the payTime-iff-success invariant of C3. -/
theorem payTimeInv_step (st : ServerState) (op : Op)
    (h : ∀ e ∈ st.orders, e.2.payTime.isSome = true ↔ e.2.status = "success") :
    ∀ e ∈ (applyOp st op).orders,
      e.2.payTime.isSome = true ↔ e.2.status = "success" := by
  cases op with
  | create a s b now rand r =>
      intro e he
      have he' : e ∈ mapSet st.orders (generateOrderId now rand)
          ((createOrder st a s b now rand r).1) := he
      rcases mem_mapSet he' with he1 | he1
      · subst he1
        simp [createOrder]
      · exact h e he1
  | validate oid pw rFail rDelay now =>
      rcases hg : mapGet st.orders oid with _ | order
      · have hst : applyOp st (Op.validate oid pw rFail rDelay now) = st := by
          simp [applyOp, validateCredential, hg]
        rw [hst]; exact h
      · by_cases hc : rFail < mkRat 1 20 ∨ ¬ pw = "123456"
        · have hst : applyOp st (Op.validate oid pw rFail rDelay now) = st := by
            simp [applyOp, validateCredential, hg, hc]
          rw [hst]; exact h
        · have horder : (applyOp st (Op.validate oid pw rFail rDelay now)).orders =
              mapSet st.orders oid
                ({ order with status := "success", payTime := some now }) := by
            rw [not_or, not_not] at hc
            simp [applyOp, validateCredential, hg, hc.1, hc.2]
          rw [horder]
          intro e he
          rcases mem_mapSet he with he1 | he1
          · subst he1; simp
          · exact h e he1
  | info oid r =>
      have hst : applyOp st (Op.info oid r) = st := by
        cases hg : mapGet st.orders oid <;> simp [applyOp, getOrderInfo, hg]
      rw [hst]; exact h
  | query oid r =>
      have hst : applyOp st (Op.query oid r) = st := by
        cases hg : mapGet st.orders oid <;> simp [applyOp, queryResult, hg]
      rw [hst]; exact h
  | security r => exact h
  | statsOp => exact h

/-- One step preserves "no orders implies no payments" (used for C7). -/
theorem ordersEmpty_step (st : ServerState) (op : Op)
    (h : st.orders = [] → st.payments = []) :
    (applyOp st op).orders = [] → (applyOp st op).payments = [] := by
  cases op with
  | create a s b now rand r =>
      intro habs
      exact absurd habs (mapSet_ne_nil _ _ _)
  | validate oid pw rFail rDelay now =>
      rcases hg : mapGet st.orders oid with _ | order
      · have hst : applyOp st (Op.validate oid pw rFail rDelay now) = st := by
          simp [applyOp, validateCredential, hg]
        rw [hst]; exact h
      · by_cases hc : rFail < mkRat 1 20 ∨ ¬ pw = "123456"
        · have hst : applyOp st (Op.validate oid pw rFail rDelay now) = st := by
            simp [applyOp, validateCredential, hg, hc]
          rw [hst]; exact h
        · intro habs
          have horder : (applyOp st (Op.validate oid pw rFail rDelay now)).orders =
              mapSet st.orders oid
                ({ order with status := "success", payTime := some now }) := by
            rw [not_or, not_not] at hc
            simp [applyOp, validateCredential, hg, hc.1, hc.2]
          rw [horder] at habs
          exact absurd habs (mapSet_ne_nil _ _ _)
  | info oid r =>
      have hst : applyOp st (Op.info oid r) = st := by
        cases hg : mapGet st.orders oid <;> simp [applyOp, getOrderInfo, hg]
      rw [hst]; exact h
  | query oid r =>
      have hst : applyOp st (Op.query oid r) = st := by
        cases hg : mapGet st.orders oid <;> simp [applyOp, queryResult, hg]
      rw [hst]; exact h
  | security r => exact h
  | statsOp => exact h

/-! ### Claim theorems -/

/-- C3: in every reachable state, a stored order's `payTime` is present iff
its `status` is `"success"`, and this invariant is preserved by every single
operation (create stores `pending`/`payTime` absent; status and `payTime`
are only ever changed together on the acceptance branch of validate). -/
theorem C3_payTime_iff_success :
    (∀ st, Reachable st → ∀ e ∈ st.orders,
      e.2.payTime.isSome = true ↔ e.2.status = "success") ∧
    (∀ st op,
      (∀ e ∈ st.orders, e.2.payTime.isSome = true ↔ e.2.status = "success") →
      ∀ e ∈ (applyOp st op).orders,
        e.2.payTime.isSome = true ↔ e.2.status = "success") := by
  constructor
  · rintro st ⟨ops, rfl⟩
    exact invariant_foldl
      (fun s => ∀ e ∈ s.orders, e.2.payTime.isSome = true ↔ e.2.status = "success")
      payTimeInv_step ops initState (by intro e he; simp [initState] at he)
  · exact payTimeInv_step

/-- Witness for C3 at the reachable one-order state of trace `ops3`. -/
theorem C3_payTime_iff_success_witness :
    createdOrder.payTime.isSome = true ↔ createdOrder.status = "success" :=
  C3_payTime_iff_success.1 (runOps ops3) ⟨ops3, rfl⟩
    ("ORDER1x", createdOrder) (List.mem_cons_self _ _)

/-- C7: `Stats` reports the sizes of the two stores and
`successRate = totalPayments / max(totalOrders, 1)`; in a reachable state
with zero orders the rate is `0` (the `max` guard prevents `0/0`). -/
theorem C7_stats_spec :
    ∀ st, Reachable st →
    (stats st).totalOrders = st.orders.length ∧
    (stats st).totalPayments = st.payments.length ∧
    (stats st).successRate =
      (st.payments.length : ℚ) / ((max st.orders.length 1 : ℕ) : ℚ) ∧
    (st.orders.length = 0 → (stats st).successRate = 0) := by
  rintro st ⟨ops, rfl⟩
  refine ⟨rfl, rfl, rfl, ?_⟩
  intro h0
  have hpay : (runOps ops).payments = [] :=
    invariant_foldl (fun s => s.orders = [] → s.payments = [])
      ordersEmpty_step ops initState (fun _ => rfl)
      (List.length_eq_zero.mp h0)
  simp [stats, hpay]

/-- Witness for C7 at the empty initial state. -/
theorem C7_stats_spec_witness : (stats initState).successRate = 0 :=
  (C7_stats_spec initState ⟨[], rfl⟩).2.2.2 rfl

/-- C4: on an orderId absent from the order store, info, query and validate
all return the 404 envelope (`success:false`, code 404, HTTP 404) with the
state untouched and no delay sampled; for validate the result is a constant
in all of `rFail`, `rDelay`, `now`, so it is produced before any delay or
failure sampling. -/
theorem C4_notFound_spec :
    ∀ (st : ServerState) (oid pw : String) (r rFail rDelay : ℚ) (now : ℕ),
    mapGet st.orders oid = none →
    getOrderInfo st oid r = (notFoundResponse Order, none, st) ∧
    queryResult st oid r = (notFoundResponse QueryData, none, st) ∧
    validateCredential st oid pw rFail rDelay now =
      (notFoundResponse Payment, none, st) ∧
    (notFoundResponse Payment).success = false ∧
    (notFoundResponse Payment).code = 404 ∧
    (notFoundResponse Payment).httpStatus = 404 := by
  intro st oid pw r rFail rDelay now h
  refine ⟨?_, ?_, ?_, rfl, rfl, rfl⟩ <;>
    simp [getOrderInfo, queryResult, validateCredential, h]

/-- Witness for C4: validate on the empty store. -/
theorem C4_notFound_spec_witness :
    validateCredential initState "X" "pw" (mkRat 1 2) (mkRat 1 2) 0 =
      (notFoundResponse Payment, none, initState) :=
  (C4_notFound_spec initState "X" "pw" (mkRat 1 2) (mkRat 1 2) (mkRat 1 2) 0
    rfl).2.2.1

/-- C5: create never fails; it returns an order whose id comes from the
generator, with status `"pending"`, `createTime` set to the clock reading,
`payTime` absent, the fixed bank name, the documented default for every
unset field, and it stores exactly that record (payments untouched). -/
theorem C5_createOrder_spec :
    ∀ (st : ServerState) (amount : Option ℚ) (subject bankCard : Option String)
      (now : ℕ) (rand : String) (r : ℚ),
    (createOrder st amount subject bankCard now rand r).1.orderId =
      generateOrderId now rand ∧
    (createOrder st amount subject bankCard now rand r).1.status = "pending" ∧
    (createOrder st amount subject bankCard now rand r).1.createTime = now ∧
    (createOrder st amount subject bankCard now rand r).1.payTime = none ∧
    (createOrder st amount subject bankCard now rand r).1.bankName =
      "中国建设银行" ∧
    (amount = none →
      (createOrder st amount subject bankCard now rand r).1.amount = 579) ∧
    (subject = none →
      (createOrder st amount subject bankCard now rand r).1.subject =
        "罗技大师系列MX Master 3s无线蓝牙双模鼠标") ∧
    (bankCard = none →
      (createOrder st amount subject bankCard now rand r).1.bankCard =
        "****7061") ∧
    mapGet (createOrder st amount subject bankCard now rand r).2.2.orders
      (generateOrderId now rand) =
      some (createOrder st amount subject bankCard now rand r).1 ∧
    (createOrder st amount subject bankCard now rand r).2.2.payments =
      st.payments ∧
    (createOrder st amount subject bankCard now rand r).2.1 = createDelay r := by
  intro st amount subject bankCard now rand r
  refine ⟨rfl, rfl, rfl, rfl, rfl, ?_, ?_, ?_, ?_, rfl, rfl⟩
  · rintro rfl; rfl
  · rintro rfl; rfl
  · rintro rfl; rfl
  · exact mapGet_mapSet_self _ _ _

/-- Witness for C5: create with all fields unset. -/
theorem C5_createOrder_spec_witness :
    (createOrder initState none none none 7 "abc" (mkRat 1 2)).1.amount = 579 :=
  (C5_createOrder_spec initState none none none 7 "abc"
    (mkRat 1 2)).2.2.2.2.2.1 rfl

/-- C9: JS `x || default` replaces every falsy value, not only an absent
field: an explicit amount `0` and empty-string subject/bankCard all get the
defaults, in the returned and stored order; a truthy value is kept. -/
theorem C9_falsy_defaults :
    ∀ (st : ServerState) (now : ℕ) (rand : String) (r : ℚ) (a : ℚ)
      (s b : String),
    (createOrder st (some 0) (some "") (some "") now rand r).1.amount = 579 ∧
    (createOrder st (some 0) (some "") (some "") now rand r).1.subject =
      "罗技大师系列MX Master 3s无线蓝牙双模鼠标" ∧
    (createOrder st (some 0) (some "") (some "") now rand r).1.bankCard =
      "****7061" ∧
    mapGet (createOrder st (some 0) (some "") (some "") now rand
        r).2.2.orders (generateOrderId now rand) =
      some (createOrder st (some 0) (some "") (some "") now rand r).1 ∧
    (createOrder st (some a) (some s) (some b) now rand r).1.amount =
      (if a = 0 then 579 else a) ∧
    (createOrder st (some a) (some s) (some b) now rand r).1.subject =
      (if s = "" then "罗技大师系列MX Master 3s无线蓝牙双模鼠标" else s) ∧
    (createOrder st (some a) (some s) (some b) now rand r).1.bankCard =
      (if b = "" then "****7061" else b) := by
  intro st now rand r a s b
  refine ⟨?_, ?_, ?_, mapGet_mapSet_self _ _ _, rfl, rfl, rfl⟩ <;>
    simp [createOrder]

/-- C10: info, query, security and stats leave both stores untouched, and so
does the rejection branch of validate; only create and validate-acceptance
mutate state. -/
theorem C10_readonly_frame :
    ∀ (st : ServerState) (oid oid2 pw : String) (r r2 r3 rFail rDelay : ℚ)
      (now : ℕ),
    (getOrderInfo st oid r).2.2 = st ∧
    (queryResult st oid2 r2).2.2 = st ∧
    (securityCheck st r3).2.2 = st ∧
    applyOp st Op.statsOp = st ∧
    ((validateCredential st oid pw rFail rDelay now).1.success = false →
      (validateCredential st oid pw rFail rDelay now).2.2 = st) := by
  intro st oid oid2 pw r r2 r3 rFail rDelay now
  refine ⟨?_, ?_, rfl, rfl, ?_⟩
  · cases hg : mapGet st.orders oid <;> simp [getOrderInfo, hg]
  · cases hg : mapGet st.orders oid2 <;> simp [queryResult, hg]
  · intro hrej
    rcases hg : mapGet st.orders oid with _ | order
    · simp [validateCredential, hg]
    · by_cases hc : rFail < mkRat 1 20 ∨ ¬ pw = "123456"
      · simp [validateCredential, hg, hc]
      · exfalso
        simp [validateCredential, hg, hc] at hrej

/-- Witness for C10: a rejected validation leaves the state unchanged. -/
theorem C10_readonly_frame_witness :
    (validateCredential stSuccess "ORDER1x" "nope" (mkRat 1 2) (mkRat 1 2)
      4).2.2 = stSuccess :=
  (C10_readonly_frame stSuccess "ORDER1x" "ORDER1x" "nope" (mkRat 1 2)
    (mkRat 1 2) (mkRat 1 2) (mkRat 1 2) (mkRat 1 2) 4).2.2.2.2 rfl

/-- C1 as stated is false: validating an already-`"success"` order with a
wrong password is rejected and leaves the order unchanged — but unchanged
means still `"success"`, not "still pending" as the claim asserts. -/
theorem claimC1_refuted : ¬ claimC1Statement := by
  intro h
  have h2 := ((h stSuccess "ORDER1x" "wrong" successOrder (mkRat 1 2)
    (mkRat 1 2) 9) rfl).2.1 rfl
  have h3 := h2.2.2 successOrder rfl
  exact absurd h3 (by decide)

/-- C1 (amended): for every stored order, validate rejects iff the 5% draw
triggers or the password differs from `"123456"`; on rejection both stores
are left exactly unchanged (so an order that was pending is still pending)
and no Payment is created or returned; on acceptance the order is mutated to
`"success"` with `payTime = now` and a Payment referencing it, with the
order's amount and the same `payTime`, is stored and returned. -/
theorem C1_validate_spec :
    ∀ (st : ServerState) (oid pw : String) (order : Order) (rFail rDelay : ℚ)
      (now : ℕ), mapGet st.orders oid = some order →
    (((validateCredential st oid pw rFail rDelay now).1.success = false) ↔
      (rFail < mkRat 1 20 ∨ pw ≠ "123456")) ∧
    ((validateCredential st oid pw rFail rDelay now).1.success = false →
      (validateCredential st oid pw rFail rDelay now).2.2 = st ∧
      (validateCredential st oid pw rFail rDelay now).1.data = none ∧
      (order.status = "pending" →
        ∀ o', mapGet (validateCredential st oid pw rFail rDelay
            now).2.2.orders oid = some o' → o'.status = "pending")) ∧
    ((validateCredential st oid pw rFail rDelay now).1.success = true →
      ∃ pay, (validateCredential st oid pw rFail rDelay now).1.data =
          some pay ∧
        mapGet (validateCredential st oid pw rFail rDelay now).2.2.orders
          oid = some { order with status := "success", payTime := some now } ∧
        pay.orderId = oid ∧ pay.amount = order.amount ∧ pay.payTime = now ∧
        mapGet (validateCredential st oid pw rFail rDelay now).2.2.payments
          pay.paymentId = some pay) := by
  intro st oid pw order rFail rDelay now hg
  by_cases hc : rFail < mkRat 1 20 ∨ ¬ pw = "123456"
  · have hv : validateCredential st oid pw rFail rDelay now =
        ({ httpStatus := 200, success := false, code := 1001, data := none,
           message := some "支付密码错误" }, some (validateDelay rDelay), st) := by
      simp [validateCredential, hg, hc]
    refine ⟨by simp [hv, hc], ?_, ?_⟩
    · intro _
      refine ⟨by rw [hv], by rw [hv], ?_⟩
      intro hp o' ho'
      rw [hv] at ho'
      rw [hg] at ho'
      have : order = o' := Option.some.inj ho'
      rw [← this]
      exact hp
    · intro habs
      rw [hv] at habs
      simp at habs
  · rw [not_or, not_not] at hc
    have hv : validateCredential st oid pw rFail rDelay now =
        ({ httpStatus := 200, success := true, code := 0,
           data := some (mkPaymentRec oid order.amount now),
           message := some "支付成功" }, some (validateDelay rDelay),
         { orders := mapSet st.orders oid (settledOrder order now),
           payments := mapSet st.payments (generatePaymentId now)
             (mkPaymentRec oid order.amount now) }) := by
      simp [validateCredential, hg, hc.1, hc.2, mkPaymentRec, settledOrder]
    refine ⟨by rw [hv]; simp [hc.1, hc.2], ?_, ?_⟩
    · intro habs
      rw [hv] at habs
      simp at habs
    · intro _
      refine ⟨mkPaymentRec oid order.amount now, by rw [hv], ?_, rfl, rfl,
        rfl, ?_⟩
      · rw [hv]
        exact mapGet_mapSet_self _ _ _
      · rw [hv]
        exact mapGet_mapSet_self _ _ _

/-- Witness for C1 (amended): a wrong password on a pending order is
rejected and the state is unchanged. -/
theorem C1_validate_spec_witness :
    (validateCredential stPending "A" "bad" (mkRat 1 2) (mkRat 1 2) 7).2.2 =
      stPending :=
  ((C1_validate_spec stPending "A" "bad" pendingOrder (mkRat 1 2) (mkRat 1 2)
    7 rfl).2.1 rfl).1

/-- C2 as stated is false: in the reachable state of trace `ops1` — create,
then validate the same order successfully twice — two Payment records
reference the one order, refuting "at most one Payment per order". -/
theorem claimC2_refuted : ¬ claimC2Statement := by
  intro h
  have h2 := (h (runOps ops1) ⟨ops1, rfl⟩).2.2 "ORDER1x"
  exact absurd h2 (by decide)

/-- One step preserves the payment/order link invariant, given that the
identifiers the step generates are fresh. -/
theorem paymentLink_step (st : ServerState) (op : Op) (hf : opFresh st op)
    (h : PaymentLink st) : PaymentLink (applyOp st op) := by
  cases op with
  | create a s b now rand r =>
      have hfr : mapGet st.orders (generateOrderId now rand) = none := hf
      constructor
      · intro e he
        have he' : e ∈ st.payments := he
        obtain ⟨o, ho, hos⟩ := h.1 e he'
        refine ⟨o, ?_, hos⟩
        show (e.2.orderId, o) ∈ mapSet st.orders (generateOrderId now rand)
          ((createOrder st a s b now rand r).1)
        rw [mapSet_of_fresh hfr]
        exact List.mem_append_left _ ho
      · intro e he hes
        have he' : e ∈ mapSet st.orders (generateOrderId now rand)
            ((createOrder st a s b now rand r).1) := he
        rcases mem_mapSet he' with he1 | he1
        · rw [he1] at hes
          simp [createOrder] at hes
        · obtain ⟨pe, hpe, hpeo⟩ := h.2 e he1 hes
          exact ⟨pe, hpe, hpeo⟩
  | validate oid pw rFail rDelay now =>
      rcases hg : mapGet st.orders oid with _ | order
      · have hst : applyOp st (Op.validate oid pw rFail rDelay now) = st := by
          simp [applyOp, validateCredential, hg]
        rw [hst]; exact h
      · by_cases hc : rFail < mkRat 1 20 ∨ ¬ pw = "123456"
        · have hst : applyOp st (Op.validate oid pw rFail rDelay now) = st := by
            simp [applyOp, validateCredential, hg, hc]
          rw [hst]; exact h
        · rw [not_or, not_not] at hc
          have hfresh : mapGet st.payments (generatePaymentId now) = none :=
            hf ⟨by rw [hg]; rfl, hc.1, hc.2⟩
          have hst : applyOp st (Op.validate oid pw rFail rDelay now) =
              { orders := mapSet st.orders oid (settledOrder order now),
                payments := st.payments ++
                  [(generatePaymentId now,
                    mkPaymentRec oid order.amount now)] } := by
            simp [applyOp, validateCredential, hg, hc.1, hc.2,
              mapSet_of_fresh hfresh, settledOrder, mkPaymentRec]
          rw [hst]
          constructor
          · intro e he
            rcases List.mem_append.mp he with he1 | he1
            · obtain ⟨o, ho, hos⟩ := h.1 e he1
              by_cases hoid : e.2.orderId = oid
              · refine ⟨settledOrder order now, ?_, rfl⟩
                rw [hoid]
                exact self_mem_mapSet _ _ _
              · exact ⟨o, mem_mapSet_of_ne _ ho hoid, hos⟩
            · have he2 : e = (generatePaymentId now,
                  mkPaymentRec oid order.amount now) := by
                simpa using he1
              rw [he2]
              exact ⟨settledOrder order now, self_mem_mapSet _ _ _, rfl⟩
          · intro e he hes
            rcases mem_mapSet he with he1 | he1
            · refine ⟨(generatePaymentId now, mkPaymentRec oid order.amount
                now), List.mem_append_right _ (List.mem_singleton_self _), ?_⟩
              rw [he1]
              rfl
            · obtain ⟨pe, hpe, hpeo⟩ := h.2 e he1 hes
              exact ⟨pe, List.mem_append_left _ hpe, hpeo⟩
  | info oid r =>
      have hst : applyOp st (Op.info oid r) = st := by
        cases hg : mapGet st.orders oid <;> simp [applyOp, getOrderInfo, hg]
      rw [hst]; exact h
  | query oid r =>
      have hst : applyOp st (Op.query oid r) = st := by
        cases hg : mapGet st.orders oid <;> simp [applyOp, queryResult, hg]
      rw [hst]; exact h
  | security r => exact h
  | statsOp => exact h

/-- C2 (amended): along traces in which every generated identifier was fresh
when generated, a Payment record exists if and only if the order it
references is stored with status `"success"`; "at most one Payment per
order" is dropped — `claimC2_refuted` shows repeated successful validation
creates several Payments for one order. -/
theorem C2_payment_link :
    ∀ st, FreshReachable st →
    (∀ e ∈ st.payments,
      ∃ o, (e.2.orderId, o) ∈ st.orders ∧ o.status = "success") ∧
    (∀ e ∈ st.orders, e.2.status = "success" →
      ∃ pe ∈ st.payments, pe.2.orderId = e.1) := by
  intro st h
  induction h with
  | init =>
      constructor <;> intro e he <;> simp [initState] at he
  | step hr hfr ih => exact paymentLink_step _ _ hfr ih

/-- Witness for C2 (amended): after the create-then-settle trace `ops2`, the
stored payment's order exists and is `"success"`. -/
theorem C2_payment_link_witness :
    ∃ o, ("ORDER1x", o) ∈ (runOps ops2).orders ∧ o.status = "success" := by
  have hfr : FreshReachable (runOps ops2) := by
    show FreshReachable (applyOp (applyOp initState
      (Op.create none none none 1 "x" (mkRat 1 2)))
      (Op.validate "ORDER1x" "123456" (mkRat 1 2) (mkRat 1 2) 2))
    exact FreshReachable.step (FreshReachable.step FreshReachable.init rfl)
      (fun _ => rfl)
  exact (C2_payment_link (runOps ops2) hfr).1 ("PAY2", pay2Rec)
    (List.mem_cons_self _ _)

/-- C6 as stated is false: the payment identifier is `PAY` + `Date.now()`
with no random component, so two payments settled in the same millisecond
(clock reading 5 twice) receive the identical identifier. -/
theorem claimC6_refuted : ¬ claimC6Statement := by
  intro h
  exact (h.2 [5, 5] ⟨0, by decide⟩ ⟨1, by decide⟩ (by decide)) rfl

/-- C6 (amended): an order identifier is the time reading plus a random
suffix, and two order ids generated at the same time with different suffixes
are distinct; a payment identifier is built from the time reading alone, so
it carries no random component and repeats whenever the clock reading
repeats. -/
theorem C6_identifier_spec :
    (∀ (t : ℕ) (r₁ r₂ : String), r₁ ≠ r₂ →
      generateOrderId t r₁ ≠ generateOrderId t r₂) ∧
    (∀ (t : ℕ) (rand : String),
      generateOrderId t rand = "ORDER" ++ toString t ++ rand) ∧
    (∀ t : ℕ, generatePaymentId t = "PAY" ++ toString t) := by
  refine ⟨?_, fun t rand => rfl, fun t => rfl⟩
  intro t r₁ r₂ hne he
  apply hne
  have h2 : ("ORDER" ++ toString t).data ++ r₁.data =
      ("ORDER" ++ toString t).data ++ r₂.data := by
    have h3 := congrArg String.data he
    simpa [generateOrderId, String.data_append] using h3
  exact String.ext (List.append_cancel_left h2)

/-- Witness for C6 (amended): distinct suffixes at the same clock reading
give distinct order ids. -/
theorem C6_identifier_spec_witness :
    generateOrderId 1 "a" ≠ generateOrderId 1 "b" :=
  C6_identifier_spec.1 1 "a" "b" (by decide)

/-- C8 as stated is false: `Math.random()` draws from `[0, 1)`, so
`Math.random() * 150 + 50` never attains the upper endpoint 200 — the
claimed closed range with both endpoints attainable does not hold. -/
theorem claimC8_refuted : ¬ claimC8Statement := by
  intro h
  obtain ⟨r, hr0, hr1, he⟩ := h.2.2.1
  simp only [createDelay] at he
  linarith

/-- C8 (amended): for a draw `r ∈ [0, 1)` every sampled delay lies in the
half-open range `[lo, hi)` of its operation — at least `lo`, strictly below
`hi`; the lower endpoint is attained at `r = 0`, the upper never. -/
theorem C8_delay_ranges :
    ∀ r : ℚ, 0 ≤ r → r < 1 →
    (50 ≤ createDelay r ∧ createDelay r < 200) ∧
    (30 ≤ infoDelay r ∧ infoDelay r < 130) ∧
    (100 ≤ validateDelay r ∧ validateDelay r < 500) ∧
    (20 ≤ queryDelay r ∧ queryDelay r < 100) ∧
    (10 ≤ securityDelay r ∧ securityDelay r < 60) ∧
    createDelay 0 = 50 ∧ infoDelay 0 = 30 ∧ validateDelay 0 = 100 ∧
    queryDelay 0 = 20 ∧ securityDelay 0 = 10 := by
  intro r h0 h1
  simp only [createDelay, infoDelay, validateDelay, queryDelay, securityDelay]
  refine ⟨⟨by linarith, by linarith⟩, ⟨by linarith, by linarith⟩,
    ⟨by linarith, by linarith⟩, ⟨by linarith, by linarith⟩,
    ⟨by linarith, by linarith⟩, by norm_num, by norm_num, by norm_num,
    by norm_num, by norm_num⟩

/-- Witness for C8 (amended) at the draw `r = 0`. -/
theorem C8_delay_ranges_witness :
    50 ≤ createDelay 0 ∧ createDelay 0 < 200 :=
  (C8_delay_ranges 0 le_rfl (by norm_num)).1

end AlipayDemo
